import Mathlib

/-!
Verification of `cmipcite` (citation resolution for CMIP data archives).

This file embeds the core logic of `src/cmipcite/citations.py` as executable
Lean definitions and proves properties of them.  External collaborators
(the handle-resolution service, the DOI metadata service, the BibTeX
service) are modelled as explicit data passed to the functions, mirroring
the narrow interfaces the Python code consumes:

- `get_text_citation` takes the DOI metadata record that the Python code
  fetches from `https://api.datacite.org/dois/doi` (creators,
  publicationYear, titles, publisher).
- `get_bibtex_citation` takes the raw BibTeX record that the Python code
  fetches from `http://dx.doi.org/doi`; the embedding models the
  post-processing step, Python's
  `re.sub("title = \x7b(.*?)\x7d", ..., bib)`.
- `get_doi_and_version` and `get_citations` take a `HandleClient`
  structure of lookup functions standing for pyhandle's
  `RESTHandleClient`; the embedding additionally returns the list of
  `(handle, key)` lookups performed, so that claims about which lookups
  happen can be stated.

`cmipcite/tracking_id.py` is not among the provided sources (only its
tests and callers are); `get_dataset_pid` and the multi-dataset handling
strategy are modelled from the spec, as marked on their definitions.
-/

namespace Cmipcite

/-- Author list style, from `citations.py` (`AuthorListStyle`). -/
inductive AuthorListStyle where
  | SHORT
  | LONG
deriving DecidableEq, Repr

/-- One creator entry of a DOI metadata record, with the fields the code
reads: `name` and `familyName`. -/
structure Creator where
  name : String
  familyName : String
deriving DecidableEq, Repr

/-- One entry of the `titles` list of a DOI metadata record; the code
reads its `title` field. -/
structure TitleEntry where
  title : String
deriving DecidableEq, Repr

/-- The DOI metadata attributes that `get_text_citation` reads from the
DataCite response. -/
structure DoiMetadata where
  creators : List Creator
  publicationYear : Nat
  titles : List TitleEntry
  publisher : String
deriving DecidableEq, Repr

/-- Author rendering of `get_text_citation` (citations.py lines 69-77).
Python indexes `creators[0]`, which raises on an empty list; the embedding
returns `none` exactly where Python raises.  For SHORT with one creator it
uses that creator's `name`; otherwise the first creator's `familyName`
followed by " et al.".  For LONG it joins all names with "; " (total,
even on the empty list, as Python's join is). -/
def renderCreators (style : AuthorListStyle) (creators : List Creator) :
    Option String :=
  match style with
  | .SHORT =>
    if creators.length = 1 then
      creators.head?.map (fun c => c.name)
    else
      creators.head?.map (fun c => c.familyName ++ " et al.")
  | .LONG => some (String.intercalate "; " (creators.map (fun c => c.name)))

/-- Embedding of `get_text_citation` (citations.py lines 44-87), with the
fetched DOI metadata passed in place of the HTTP call.  Python indexes
`data["titles"][0]`, which raises on an empty list, so the embedding is
`Option`-valued. -/
def get_text_citation (doi : String) (version : String)
    (author_list_style : AuthorListStyle) (data : DoiMetadata) :
    Option String := do
  let creators ← renderCreators author_list_style data.creators
  let t ← data.titles.head?
  pure (creators ++ " (" ++ toString data.publicationYear ++ "): " ++
    t.title ++ ". Version " ++ version ++ ". " ++ data.publisher ++
    ". https://doi.org/" ++ doi ++ ".")

/-- C5: For every DOI metadata record with a non-empty creator list,
`get_text_citation` renders the author part as follows: with SHORT style
and exactly one creator, the creator's full name; with SHORT style and two
or more creators, the first creator's family name followed by " et al.";
with LONG style, all creators' full names joined by "; ". -/
theorem renderCreators_spec (c c2 : Creator) (cs : List Creator) :
    renderCreators .SHORT [c] = some c.name ∧
    renderCreators .SHORT (c :: c2 :: cs) =
      some (c.familyName ++ " et al.") ∧
    renderCreators .LONG (c :: cs) =
      some (String.intercalate "; " ((c :: cs).map (fun x => x.name))) := by
  refine ⟨rfl, ?_, rfl⟩
  simp [renderCreators]

/-- C6: when the author rendering succeeds and a first title is present,
`get_text_citation` returns exactly the composed string
`authors (publicationYear): title. Version version. publisher.
https://doi.org/doi.` with the first title of the metadata. -/
theorem get_text_citation_format (doi version : String)
    (style : AuthorListStyle) (d : DoiMetadata) (authors : String)
    (t : TitleEntry) (hc : renderCreators style d.creators = some authors)
    (ht : d.titles.head? = some t) :
    get_text_citation doi version style d =
      some (authors ++ " (" ++ toString d.publicationYear ++ "): " ++
        t.title ++ ". Version " ++ version ++ ". " ++ d.publisher ++
        ". https://doi.org/" ++ doi ++ ".") := by
  simp [get_text_citation, hc, ht]

/-- Witness for C6 at a concrete metadata record. -/
theorem get_text_citation_format_witness :
    get_text_citation "10.22033/X" "20210205" .LONG
      ⟨[⟨"Ada A", "A"⟩, ⟨"Bob B", "B"⟩], 2021, [⟨"Some Data"⟩], "ESGF"⟩ =
      some ("Ada A; Bob B" ++ " (" ++ toString (2021 : Nat) ++ "): " ++
        "Some Data" ++ ". Version " ++ "20210205" ++ ". " ++ "ESGF" ++
        ". https://doi.org/" ++ "10.22033/X" ++ ".") :=
  get_text_citation_format "10.22033/X" "20210205" .LONG
    ⟨[⟨"Ada A", "A"⟩, ⟨"Bob B", "B"⟩], 2021, [⟨"Some Data"⟩], "ESGF"⟩
    "Ada A; Bob B" ⟨"Some Data"⟩ rfl rfl

/-- C10: with SHORT style and an empty creators list, the author-rendering
branch indexes the first creator and fails, so no citation is returned;
with at least one creator present every access in that branch is in
bounds and rendering succeeds. -/
theorem get_text_citation_short_creators_access (doi version : String)
    (year : Nat) (titles : List TitleEntry) (publisher : String)
    (creators : List Creator) (h : creators ≠ []) :
    renderCreators .SHORT [] = none ∧
    get_text_citation doi version .SHORT ⟨[], year, titles, publisher⟩ =
      none ∧
    (renderCreators .SHORT creators).isSome := by
  refine ⟨rfl, rfl, ?_⟩
  match creators, h with
  | c :: cs, _ =>
    cases cs <;> simp [renderCreators]

/-- Witness for C10 at a concrete creator list. -/
theorem get_text_citation_short_creators_access_witness :
    renderCreators .SHORT [] = none ∧
    get_text_citation "10.1/x" "1" .SHORT ⟨[], 2020, [⟨"T"⟩], "P"⟩ =
      none ∧
    (renderCreators .SHORT [⟨"Ada A", "A"⟩]).isSome :=
  get_text_citation_short_creators_access "10.1/x" "1" 2020 [⟨"T"⟩] "P"
    [⟨"Ada A", "A"⟩] (by simp)

/-! BibTeX post-processing (citations.py lines 113-118).

Python runs `re.sub` with pattern `title = \x7b(.*?)\x7d` over the raw
record: scanning left to right, at each position it tries the literal
`title = \x7b`, then a lazy group of characters other than a newline
(`.` does not match newlines: no DOTALL flag), then a closing brace; the
lazy group therefore runs to the FIRST closing brace after the literal
with no newline in between.  Each non-overlapping match is replaced by
`title = \x7b<group>. Version <version>.\x7d` and scanning resumes after
the match.  The embedding below reproduces exactly that, with fuel equal
to the string length (one unit per character position, which bounds the
number of scanning steps). -/

/-- The literal part of the pattern, `title = \x7b`. -/
def titleLit : List Char := "title = \x7b".toList

/-- Lazy scan of `(.*?)\x7d`: the shortest run of characters containing
no closing brace and no newline, followed by a closing brace; returns the
group and the remainder after the brace, or `none` when a newline or the
end of input comes first. -/
def lazyUpToBrace : List Char → Option (List Char × List Char)
  | [] => none
  | c :: rest =>
    if c = '\x7d' then some ([], rest)
    else if c = '\n' then none
    else (lazyUpToBrace rest).map (fun p => (c :: p.1, p.2))

/-- Try the whole pattern at the head of `s`: the literal, then the lazy
group and closing brace. -/
def lazyMatchAt (s : List Char) : Option (List Char × List Char) :=
  if titleLit.isPrefixOf s then lazyUpToBrace (s.drop titleLit.length)
  else none

/-- The text that replaces a matched group `g`: the match is rewritten to
`titleLit ++ g ++ versionSplice v`. -/
def versionSplice (v : List Char) : List Char :=
  ". Version ".toList ++ v ++ ('.' :: '\x7d' :: [])

/-- One scanning pass of `re.sub`, with fuel bounding the number of
positions visited. -/
def reSubGo (v : List Char) : Nat → List Char → List Char
  | _, [] => []
  | 0, s => s
  | fuel + 1, c :: rest =>
    match lazyMatchAt (c :: rest) with
    | some (g, r) => titleLit ++ g ++ versionSplice v ++ reSubGo v fuel r
    | none => c :: reSubGo v fuel rest

/-- The `re.sub` of citations.py line 114-118 on character lists. -/
def reSubTitle (v : List Char) (s : List Char) : List Char :=
  reSubGo v s.length s

/-- Embedding of `get_bibtex_citation` (citations.py lines 90-120), with
the raw BibTeX record fetched from the collaborator passed as `bib`. -/
def get_bibtex_citation (version : String) (bib : String) : String :=
  String.mk (reSubTitle version.toList bib.toList)

/-- The pattern literal fires nowhere in `l`, at no starting position. -/
def noTitle (l : List Char) : Prop :=
  ∀ i < l.length, titleLit.isPrefixOf (l.drop i) = false

instance : DecidablePred noTitle := fun _ =>
  Nat.decidableBallLT _ _

theorem isPrefixOf_append_self (l x : List Char) :
    l.isPrefixOf (l ++ x) = true := by
  induction l with
  | nil => cases x <;> rfl
  | cons c cs ih => simp [List.isPrefixOf, ih]

theorem lazyMatchAt_eq_none {s : List Char}
    (h : titleLit.isPrefixOf s = false) : lazyMatchAt s = none := by
  unfold lazyMatchAt
  rw [h]
  rfl

theorem lazyMatchAt_eq_scan {s : List Char}
    (h : titleLit.isPrefixOf s = true) :
    lazyMatchAt s = lazyUpToBrace (s.drop titleLit.length) := by
  unfold lazyMatchAt
  rw [h]
  rfl

theorem noTitle_drop {l : List Char} (h : noTitle l) (i : Nat) :
    titleLit.isPrefixOf (l.drop i) = false := by
  by_cases hi : i < l.length
  · exact h i hi
  · rw [List.drop_eq_nil_of_le (Nat.le_of_not_lt hi)]
    rfl

theorem lazyUpToBrace_append {g : List Char} (r : List Char)
    (hbrace : '\x7d' ∉ g) (hnl : '\n' ∉ g) :
    lazyUpToBrace (g ++ '\x7d' :: r) = some (g, r) := by
  induction g with
  | nil => simp [lazyUpToBrace]
  | cons c cs ih =>
    have hc1 : ¬ c = '\x7d' := fun h => hbrace (h ▸ List.mem_cons_self c cs)
    have hc2 : ¬ c = '\n' := fun h => hnl (h ▸ List.mem_cons_self c cs)
    have ih2 := ih (fun h => hbrace (List.mem_cons_of_mem c h))
      (fun h => hnl (List.mem_cons_of_mem c h))
    simp [lazyUpToBrace, hc1, hc2, ih2]

theorem reSubGo_zero (v : List Char) (s : List Char) :
    reSubGo v 0 s = s := by
  cases s <;> rfl

theorem reSubGo_cons_none (v : List Char) (fuel : Nat) (c : Char)
    (rest : List Char) (h : lazyMatchAt (c :: rest) = none) :
    reSubGo v (fuel + 1) (c :: rest) = c :: reSubGo v fuel rest := by
  simp [reSubGo, h]

theorem reSubGo_match (v : List Char) (fuel : Nat) (s g r : List Char)
    (h : lazyMatchAt s = some (g, r)) :
    reSubGo v (fuel + 1) s =
      titleLit ++ g ++ versionSplice v ++ reSubGo v fuel r := by
  cases s with
  | nil =>
    have hnone : lazyMatchAt [] = none := by decide
    rw [hnone] at h
    exact Option.noConfusion h
  | cons c rest => simp [reSubGo, h]

theorem reSubGo_noTitle (v : List Char) (fuel : Nat) (l : List Char)
    (h : noTitle l) : reSubGo v fuel l = l := by
  induction fuel generalizing l with
  | zero => exact reSubGo_zero v l
  | succ f ih =>
    cases l with
    | nil => rfl
    | cons c rest =>
      have h0 := h 0 (by simp)
      rw [List.drop_zero] at h0
      rw [reSubGo_cons_none v f c rest (lazyMatchAt_eq_none h0)]
      have hrest : noTitle rest := by
        intro i hi
        have h1 := h (i + 1) (by rw [List.length_cons]; omega)
        rw [List.drop_succ_cons] at h1
        exact h1
      rw [ih rest hrest]

theorem reSubGo_splice (v t post : List Char) (hbrace : '\x7d' ∉ t)
    (hnl : '\n' ∉ t) (hpost : noTitle post) :
    ∀ (pre : List Char) (fuel : Nat),
      (pre ++ (titleLit ++ (t ++ '\x7d' :: post))).length ≤ fuel →
      (∀ i < pre.length,
        titleLit.isPrefixOf
          ((pre ++ (titleLit ++ (t ++ '\x7d' :: post))).drop i) = false) →
      reSubGo v fuel (pre ++ (titleLit ++ (t ++ '\x7d' :: post))) =
        pre ++ (titleLit ++ (t ++ (versionSplice v ++ post))) := by
  intro pre
  induction pre with
  | nil =>
    intro fuel hfuel _
    rw [List.nil_append] at hfuel ⊢
    cases fuel with
    | zero =>
      exfalso
      have h9 : titleLit.length = 9 := rfl
      rw [List.length_append, h9] at hfuel
      omega
    | succ f =>
      have h1 : titleLit.isPrefixOf
          (titleLit ++ (t ++ '\x7d' :: post)) = true :=
        isPrefixOf_append_self titleLit (t ++ '\x7d' :: post)
      have hm : lazyMatchAt (titleLit ++ (t ++ '\x7d' :: post)) =
          some (t, post) := by
        rw [lazyMatchAt_eq_scan h1, List.drop_left]
        exact lazyUpToBrace_append post hbrace hnl
      rw [reSubGo_match v f _ t post hm, reSubGo_noTitle v f post hpost]
      simp [List.append_assoc]
  | cons c pre2 ih =>
    intro fuel hfuel hocc
    cases fuel with
    | zero =>
      exfalso
      rw [List.cons_append, List.length_cons] at hfuel
      omega
    | succ f =>
      have h0 := hocc 0 (by simp)
      rw [List.drop_zero, List.cons_append] at h0
      rw [List.cons_append, List.cons_append]
      rw [reSubGo_cons_none v f c _ (lazyMatchAt_eq_none h0)]
      have hlen :
          (pre2 ++ (titleLit ++ (t ++ '\x7d' :: post))).length ≤ f := by
        rw [List.cons_append, List.length_cons] at hfuel
        omega
      have hocc2 : ∀ i < pre2.length,
          titleLit.isPrefixOf
            ((pre2 ++ (titleLit ++ (t ++ '\x7d' :: post))).drop i) =
              false := by
        intro i hi
        have h1 := hocc (i + 1) (by rw [List.length_cons]; omega)
        rw [List.cons_append, List.drop_succ_cons] at h1
        exact h1
      rw [ih f hlen hocc2]

/-- C1 (amended): for every raw BibTeX record whose single occurrence of
the pattern literal opens a title whose content contains no closing brace
and no newline, the post-processing of `get_bibtex_citation` appends
`. Version version.` inside the braces, immediately before the title's
closing brace, and leaves every other character of the record unchanged.
(The original claim extends this to titles with nested literal braces or
spanning multiple lines; the accompanying counterexample refutes that
extension.) -/
theorem reSubTitle_splice (v pre t post : List Char)
    (hbrace : '\x7d' ∉ t) (hnl : '\n' ∉ t)
    (hpre : ∀ i < pre.length,
      titleLit.isPrefixOf
        ((pre ++ (titleLit ++ (t ++ '\x7d' :: post))).drop i) = false)
    (hpost : noTitle post) :
    reSubTitle v (pre ++ (titleLit ++ (t ++ '\x7d' :: post))) =
      pre ++ (titleLit ++ (t ++ (versionSplice v ++ post))) :=
  reSubGo_splice v t post hbrace hnl hpost pre _ le_rfl hpre

/-- Witness for C1 (amended) at a concrete record. -/
theorem reSubTitle_splice_witness :
    reSubTitle "1.0".toList
      ("@misc\x7bk, ".toList ++ (titleLit ++ ("Example".toList ++
        '\x7d' :: ", year = \x7b2019\x7d\x7d".toList))) =
      "@misc\x7bk, ".toList ++ (titleLit ++ ("Example".toList ++
        (versionSplice "1.0".toList ++
          ", year = \x7b2019\x7d\x7d".toList))) :=
  reSubTitle_splice "1.0".toList "@misc\x7bk, ".toList "Example".toList
    ", year = \x7b2019\x7d\x7d".toList (by decide) (by decide)
    (by decide) (by decide)

/-- C1 (counterexample): on a record whose title contains nested literal
braces, the post-processing does NOT append the version immediately
before the title's closing brace with the rest unchanged; the lazy match
stops at the first closing brace inside the title and the record is
corrupted. -/
theorem get_bibtex_citation_nested_brace_counterexample :
    get_bibtex_citation "1.0"
        "@misc\x7bk, title = \x7bA \x7bB\x7d C\x7d, year = \x7b2019\x7d\x7d" ≠
      "@misc\x7bk, title = \x7bA \x7bB\x7d C. Version 1.0.\x7d, year = \x7b2019\x7d\x7d" ∧
    get_bibtex_citation "1.0"
        "@misc\x7bk, title = \x7bA \x7bB\x7d C\x7d, year = \x7b2019\x7d\x7d" =
      "@misc\x7bk, title = \x7bA \x7bB. Version 1.0.\x7d C\x7d, year = \x7b2019\x7d\x7d" := by
  constructor
  · decide
  · decide

/-- C9: for a raw record containing `title = \x7bExample Dataset\x7d` and
no other occurrence of the pattern literal, `get_bibtex_citation` with
version 1.0 rewrites that field to
`title = \x7bExample Dataset. Version 1.0.\x7d` and leaves every other
byte of the record identical. -/
theorem get_bibtex_citation_roundtrip :
    get_bibtex_citation "1.0"
        "@misc\x7bk, title = \x7bExample Dataset\x7d, year = \x7b2019\x7d\x7d" =
      "@misc\x7bk, title = \x7bExample Dataset. Version 1.0.\x7d, year = \x7b2019\x7d\x7d" := by
  decide

/-! Identifier resolution (citations.py lines 131-207 and
`cmipcite/tracking_id.py`).

Python strips namespaces with `str.replace`, which removes EVERY
occurrence of the substring, not only a leading one; `pyReplace` below
models `str.replace` faithfully (fuel-based scan, one fuel unit per
character position). -/

/-- Model of Python `s.replace(pat, repl)`: replace every non-overlapping
occurrence of `pat`, scanning left to right. -/
def pyReplaceGo (pat repl : List Char) : Nat → List Char → List Char
  | _, [] => []
  | 0, s => s
  | fuel + 1, c :: rest =>
    if pat.isPrefixOf (c :: rest) then
      repl ++ pyReplaceGo pat repl fuel ((c :: rest).drop pat.length)
    else c :: pyReplaceGo pat repl fuel rest

/-- Python `s.replace(pat, repl)` on strings. -/
def pyReplace (s pat repl : String) : String :=
  String.mk (pyReplaceGo pat.toList repl.toList s.toList.length s.toList)

/-- Definition following the spec's words, for comparison with the
source's use of `str.replace`: strip one leading `doi:` namespace from a
value, leaving a value without that leading namespace unchanged. -/
def stripLeadingDoiNamespace (s : String) : String :=
  if ("doi:".toList).isPrefixOf s.toList then String.mk (s.toList.drop 4)
  else s

deriving instance DecidableEq for Except

/-- One dataset membership of a tracking ID: the dataset PID and the
publication date of that dataset release (dates are YYYYMMDD strings,
as in the integration tests, so lexicographic order is date order). -/
structure DatasetLink where
  pid : String
  publication_date : String
deriving DecidableEq, Repr

/-- Modelled from the spec: `MultiDatasetHandlingStrategy` is defined in
`cmipcite/tracking_id.py`, which is not among the provided source files;
the spec gives the two values FIRST (earliest publication date) and
LATEST (most recent publication date). -/
inductive MultiDatasetHandlingStrategy where
  | FIRST
  | LATEST
deriving DecidableEq, Repr

/-- Errors raised by the resolution code: `NotImplementedError` with a
message (unknown aggregation level, path input), the
`MultipleDatasetMemberError` of `cmipcite.tracking_id`, the
`AttributeError` Python raises when `.replace` is called on a `None`
lookup result, and a not-found failure of the handle service. -/
inductive CmipError where
  | notImplemented (msg : String)
  | multipleDatasetMember (msg : String)
  | attributeError
  | handleNotFound (msg : String)
deriving DecidableEq, Repr

/-- The narrow interface of pyhandle's `RESTHandleClient` that the code
consumes: attribute lookup on a handle (`None` when absent, modelled as
`Option`), and the enumeration of dataset memberships of a tracking ID
with their publication dates (the "get all values/links" capability of
the spec, used by `get_dataset_pid`). -/
structure HandleClient where
  get_value_from_handle : String → String → Option String
  dataset_links : String → List DatasetLink

/-- Order for sorting candidates most-recent first. -/
def dateGE (a b : DatasetLink) : Prop :=
  b.publication_date ≤ a.publication_date

instance : DecidableRel dateGE := fun a b =>
  inferInstanceAs (Decidable (b.publication_date ≤ a.publication_date))

instance : IsTotal DatasetLink dateGE :=
  ⟨fun a b => le_total b.publication_date a.publication_date⟩

instance : IsTrans DatasetLink dateGE :=
  ⟨fun _ _ _ hab hbc => le_trans hbc hab⟩

/-- Candidates sorted by descending publication date (stable). -/
def sortLinksDesc (links : List DatasetLink) : List DatasetLink :=
  List.insertionSort dateGE links

/-- How one candidate is rendered in the ambiguity error message,
`publication_date (PID: pid)`. -/
def candidateDesc (l : DatasetLink) : String :=
  l.publication_date ++ " (PID: " ++ l.pid ++ ")"

/-- Message of `MultipleDatasetMemberError`, with the format pinned by
`tests/integration/test_tracking_id.py`: the candidates are listed
most-recent first, separated by a comma and a space. -/
def multiDatasetMsg (tracking_id : String) (links : List DatasetLink) :
    String :=
  "tracking_id='" ++ tracking_id ++
    "' is associated with multiple versions (therefore PIDs): " ++
    String.intercalate ", " ((sortLinksDesc links).map candidateDesc)

/-- Modelled from the spec: `get_dataset_pid` is defined in
`cmipcite/tracking_id.py`, which is not among the provided source files
(only its tests and callers are).  Behaviour follows spec section 4.1
step 2, FILE branch: collect all dataset PIDs linked to the tracking ID;
with exactly one, take it; with more than one and no strategy, fail with
`MultipleDatasetMemberError` listing every candidate most-recent first
(message format pinned by `tests/integration/test_tracking_id.py`); with
FIRST take the earliest publication date, with LATEST the most
recent. -/
def get_dataset_pid (client : HandleClient)
    (multi_dataset_handling : Option MultiDatasetHandlingStrategy)
    (tracking_id : String) : Except CmipError String :=
  match client.dataset_links tracking_id with
  | [] => .error (.handleNotFound tracking_id)
  | [l] => .ok l.pid
  | l1 :: l2 :: rest =>
    match multi_dataset_handling with
    | none =>
      .error (.multipleDatasetMember
        (multiDatasetMsg tracking_id (l1 :: l2 :: rest)))
    | some .FIRST =>
      .ok ((sortLinksDesc (l1 :: l2 :: rest)).getLastD l1).pid
    | some .LATEST =>
      .ok ((sortLinksDesc (l1 :: l2 :: rest)).headD l1).pid

/-- The final lookups of `get_doi_and_version` (citations.py lines
203-207) on a selected dataset PID: `IS_PART_OF` (Python dies with
`AttributeError` calling `.replace` on `None` when it is absent, then
every occurrence of `doi:` is removed by `str.replace`) and
`VERSION_NUMBER` (returned as-is, `None` included).  The second
component is the list of lookups performed. -/
def doi_version_from_pid (client : HandleClient) (pid : String) :
    Except CmipError (String × Option String) × List (String × String) :=
  match client.get_value_from_handle pid "IS_PART_OF" with
  | none => (.error .attributeError, [(pid, "IS_PART_OF")])
  | some doi_raw =>
    (.ok (pyReplace doi_raw "doi:" "",
      client.get_value_from_handle pid "VERSION_NUMBER"),
     [(pid, "IS_PART_OF"), (pid, "VERSION_NUMBER")])

/-- Python interpolation of the aggregation-level lookup result into the
error message; an absent value prints as `None`. -/
def pyStrOpt : Option String → String
  | some s => s
  | none => "None"

/-- Embedding of `get_doi_and_version` (citations.py lines 131-207).
`path_exists` stands for `Path(in_value).exists()` (that branch raises
`NotImplementedError` in the source).  Besides the result, the embedding
returns the list of `(handle, key)` lookups performed, with the
dataset-membership enumeration of `get_dataset_pid` recorded as a
`DATASET_LINKS` entry. -/
def get_doi_and_version (client : HandleClient) (path_exists : Bool)
    (multi_dataset_handling : Option MultiDatasetHandlingStrategy)
    (in_value : String) :
    Except CmipError (String × Option String) × List (String × String) :=
  match path_exists with
  | true => (.error (.notImplemented "NotImplementedError"), [])
  | false =>
    let id_in_value := pyReplace in_value "hdl:" ""
    let aggLev := client.get_value_from_handle id_in_value
      "AGGREGATION_LEVEL"
    if aggLev = some "DATASET" then
      let r := doi_version_from_pid client id_in_value
      (r.1, (id_in_value, "AGGREGATION_LEVEL") :: r.2)
    else if aggLev = some "FILE" then
      match get_dataset_pid client multi_dataset_handling id_in_value with
      | .error e =>
        (.error e, [(id_in_value, "AGGREGATION_LEVEL"),
          (id_in_value, "DATASET_LINKS")])
      | .ok pid =>
        let r := doi_version_from_pid client pid
        (r.1, (id_in_value, "AGGREGATION_LEVEL") ::
          (id_in_value, "DATASET_LINKS") :: r.2)
    else
      (.error (.notImplemented ("The id " ++ id_in_value ++
        " has an unknown AGGREGATION_LEVEL: " ++ pyStrOpt aggLev)),
       [(id_in_value, "AGGREGATION_LEVEL")])

/-- Embedding of `get_citations` (citations.py lines 210-284): resolve
every input to a (DOI, version) pair, collapse duplicate pairs, and
produce one citation per remaining pair.  Python collapses via
`set(doi_versions)`, whose iteration order is unspecified; the embedding
uses `List.dedup` as one deterministic choice of that order (the claims
about `get_citations` are order-independent). -/
def get_citations (client : HandleClient) (path_exists : String → Bool)
    (get_citation : String → Option String → String)
    (multi_dataset_handling : Option MultiDatasetHandlingStrategy)
    (ids_or_paths : List String) : Except CmipError (List String) := do
  let doi_versions ← ids_or_paths.mapM (fun v =>
    (get_doi_and_version client (path_exists v) multi_dataset_handling
      v).1)
  pure (doi_versions.dedup.map (fun p => get_citation p.1 p.2))

/-- A concrete handle database used by the witnesses: `ds` is a dataset
PID, `bad` has an unclassifiable aggregation level, `tid` is a tracking
ID member of two datasets `pa` (2019) and `pb` (2021), and `weird` is a
dataset PID whose `IS_PART_OF` value contains `doi:` in the middle. -/
def testClient : HandleClient where
  get_value_from_handle h k :=
    if h = "ds" then
      if k = "AGGREGATION_LEVEL" then some "DATASET"
      else if k = "IS_PART_OF" then some "doi:10.1/x"
      else if k = "VERSION_NUMBER" then some "v1"
      else none
    else if h = "bad" then
      if k = "AGGREGATION_LEVEL" then some "UNKNOWN" else none
    else if h = "tid" then
      if k = "AGGREGATION_LEVEL" then some "FILE" else none
    else if h = "pa" then
      if k = "IS_PART_OF" then some "doi:10.1/x"
      else if k = "VERSION_NUMBER" then some "20190903"
      else none
    else if h = "pb" then
      if k = "IS_PART_OF" then some "doi:10.1/x"
      else if k = "VERSION_NUMBER" then some "20210205"
      else none
    else if h = "weird" then
      if k = "AGGREGATION_LEVEL" then some "DATASET"
      else if k = "IS_PART_OF" then some "10.1/adoi:b"
      else if k = "VERSION_NUMBER" then some "v1"
      else none
    else none
  dataset_links h :=
    if h = "tid" then [⟨"pa", "20190903"⟩, ⟨"pb", "20210205"⟩] else []

/-- C7: an identifier whose AGGREGATION_LEVEL is neither FILE nor
DATASET fails with an error whose message includes the offending raw
value; the only lookup performed is the classification lookup itself, so
neither the FILE nor the DATASET behavior is entered. -/
theorem get_doi_and_version_unknown_agg (client : HandleClient)
    (strategy : Option MultiDatasetHandlingStrategy) (in_value a : String)
    (ha : client.get_value_from_handle (pyReplace in_value "hdl:" "")
        "AGGREGATION_LEVEL" = some a)
    (h1 : a ≠ "DATASET") (h2 : a ≠ "FILE") :
    get_doi_and_version client false strategy in_value =
      (.error (.notImplemented ("The id " ++
          pyReplace in_value "hdl:" "" ++
          " has an unknown AGGREGATION_LEVEL: " ++ a)),
       [(pyReplace in_value "hdl:" "", "AGGREGATION_LEVEL")]) ∧
    ∃ x y, "The id " ++ pyReplace in_value "hdl:" "" ++
        " has an unknown AGGREGATION_LEVEL: " ++ a = x ++ a ++ y := by
  constructor
  · simp only [get_doi_and_version, ha, Option.some.injEq, pyStrOpt]
    rw [if_neg h1, if_neg h2]
  · exact ⟨"The id " ++ pyReplace in_value "hdl:" "" ++
      " has an unknown AGGREGATION_LEVEL: ", "", by
        simp [String.append_assoc]⟩

/-- Witness for C7 at a concrete identifier. -/
theorem get_doi_and_version_unknown_agg_witness :
    get_doi_and_version testClient false none "bad" =
      (.error (.notImplemented ("The id " ++
          pyReplace "bad" "hdl:" "" ++
          " has an unknown AGGREGATION_LEVEL: " ++ "UNKNOWN")),
       [(pyReplace "bad" "hdl:" "", "AGGREGATION_LEVEL")]) ∧
    ∃ x y, "The id " ++ pyReplace "bad" "hdl:" "" ++
        " has an unknown AGGREGATION_LEVEL: " ++ "UNKNOWN" =
          x ++ "UNKNOWN" ++ y :=
  get_doi_and_version_unknown_agg testClient none "bad" "UNKNOWN"
    (by decide) (by decide) (by decide)

/-- C8 (amended): an identifier classified DATASET is resolved with no
disambiguation and exactly one follow-up lookup pair, `IS_PART_OF` and
`VERSION_NUMBER`, on the identifier itself; the returned DOI is the
`IS_PART_OF` value with every occurrence of `doi:` removed (which equals
stripping the leading namespace whenever `doi:` occurs only as a leading
namespace).  The original claim's reading of the DOI as the value with
the leading `doi:` namespace stripped is refuted by the accompanying
counterexample. -/
theorem get_doi_and_version_dataset (client : HandleClient)
    (strategy : Option MultiDatasetHandlingStrategy)
    (in_value p vv : String)
    (ha : client.get_value_from_handle (pyReplace in_value "hdl:" "")
        "AGGREGATION_LEVEL" = some "DATASET")
    (hp : client.get_value_from_handle (pyReplace in_value "hdl:" "")
        "IS_PART_OF" = some p)
    (hv : client.get_value_from_handle (pyReplace in_value "hdl:" "")
        "VERSION_NUMBER" = some vv) :
    get_doi_and_version client false strategy in_value =
      (.ok (pyReplace p "doi:" "", some vv),
       [(pyReplace in_value "hdl:" "", "AGGREGATION_LEVEL"),
        (pyReplace in_value "hdl:" "", "IS_PART_OF"),
        (pyReplace in_value "hdl:" "", "VERSION_NUMBER")]) := by
  simp [get_doi_and_version, ha, doi_version_from_pid, hp, hv]

/-- Witness for C8 (amended) at a concrete identifier, exercising the
`hdl:` namespace removal on the input as well. -/
theorem get_doi_and_version_dataset_witness :
    get_doi_and_version testClient false none "hdl:ds" =
      (.ok (pyReplace "doi:10.1/x" "doi:" "", some "v1"),
       [(pyReplace "hdl:ds" "hdl:" "", "AGGREGATION_LEVEL"),
        (pyReplace "hdl:ds" "hdl:" "", "IS_PART_OF"),
        (pyReplace "hdl:ds" "hdl:" "", "VERSION_NUMBER")]) :=
  get_doi_and_version_dataset testClient none "hdl:ds" "doi:10.1/x" "v1"
    (by decide) (by decide) (by decide)

/-- C8 (counterexample): the code removes every occurrence of `doi:`
from the `IS_PART_OF` value, not only a leading namespace: for a DATASET
identifier whose `IS_PART_OF` value contains `doi:` in the middle and
not as a leading namespace, the returned DOI differs from the value with
the leading namespace stripped (which is the value itself). -/
theorem get_doi_and_version_doi_strip_counterexample :
    (get_doi_and_version testClient false none "weird").1 =
      Except.ok ("10.1/ab", some "v1") ∧
    stripLeadingDoiNamespace "10.1/adoi:b" = "10.1/adoi:b" ∧
    (get_doi_and_version testClient false none "weird").1 ≠
      Except.ok (stripLeadingDoiNamespace "10.1/adoi:b", some "v1") := by
  exact ⟨by decide, by decide, by decide⟩

/-- C2: a tracking ID (classified FILE) linked to more than one dataset
PID fails, when no strategy is supplied, with a
MultipleDatasetMemberError whose message lists every candidate as
`publication_date (PID: pid)`, most recent first: the listed sequence is
a permutation of the candidates sorted so that every earlier entry has a
publication date at least that of every later entry. -/
theorem get_doi_and_version_multi_no_strategy (client : HandleClient)
    (in_value : String) (l1 l2 : DatasetLink) (rest : List DatasetLink)
    (ha : client.get_value_from_handle (pyReplace in_value "hdl:" "")
        "AGGREGATION_LEVEL" = some "FILE")
    (hl : client.dataset_links (pyReplace in_value "hdl:" "") =
        l1 :: l2 :: rest) :
    (get_doi_and_version client false none in_value).1 =
      .error (.multipleDatasetMember
        (multiDatasetMsg (pyReplace in_value "hdl:" "")
          (l1 :: l2 :: rest))) ∧
    multiDatasetMsg (pyReplace in_value "hdl:" "") (l1 :: l2 :: rest) =
      "tracking_id='" ++ pyReplace in_value "hdl:" "" ++
        "' is associated with multiple versions (therefore PIDs): " ++
        String.intercalate ", "
          ((sortLinksDesc (l1 :: l2 :: rest)).map candidateDesc) ∧
    (sortLinksDesc (l1 :: l2 :: rest)).Perm (l1 :: l2 :: rest) ∧
    (sortLinksDesc (l1 :: l2 :: rest)).Pairwise dateGE := by
  refine ⟨?_, rfl, List.perm_insertionSort dateGE _, ?_⟩
  · simp [get_doi_and_version, ha, get_dataset_pid, hl]
  · exact List.sorted_insertionSort dateGE (l1 :: l2 :: rest)

/-- Witness for C2 at a concrete tracking ID with two memberships. -/
theorem get_doi_and_version_multi_no_strategy_witness :
    (get_doi_and_version testClient false none "tid").1 =
      .error (.multipleDatasetMember
        (multiDatasetMsg (pyReplace "tid" "hdl:" "")
          [⟨"pa", "20190903"⟩, ⟨"pb", "20210205"⟩])) ∧
    multiDatasetMsg (pyReplace "tid" "hdl:" "")
        [⟨"pa", "20190903"⟩, ⟨"pb", "20210205"⟩] =
      "tracking_id='" ++ pyReplace "tid" "hdl:" "" ++
        "' is associated with multiple versions (therefore PIDs): " ++
        String.intercalate ", "
          ((sortLinksDesc [⟨"pa", "20190903"⟩, ⟨"pb", "20210205"⟩]).map
            candidateDesc) ∧
    (sortLinksDesc [⟨"pa", "20190903"⟩, ⟨"pb", "20210205"⟩]).Perm
      [⟨"pa", "20190903"⟩, ⟨"pb", "20210205"⟩] ∧
    (sortLinksDesc [⟨"pa", "20190903"⟩, ⟨"pb", "20210205"⟩]).Pairwise
      dateGE :=
  get_doi_and_version_multi_no_strategy testClient "tid"
    ⟨"pa", "20190903"⟩ ⟨"pb", "20210205"⟩ [] (by decide) (by decide)

theorem getLastD_min :
    ∀ (l : List DatasetLink) (d : DatasetLink),
      (d :: l).Pairwise dateGE →
      ∀ y ∈ d :: l,
        (l.getLastD d).publication_date ≤ y.publication_date := by
  intro l
  induction l with
  | nil =>
    intro d _ y hy
    rw [List.getLastD_nil]
    rw [List.mem_singleton.mp hy]
  | cons a as ih =>
    intro d hp y hy
    rw [List.getLastD_cons]
    rcases List.mem_cons.mp hy with hyd | hy2
    · subst hyd
      exact List.rel_of_pairwise_cons hp (List.getLastD_mem_cons as a)
    · exact ih a hp.of_cons y hy2

theorem get_doi_and_version_file_ok (client : HandleClient)
    (strategy : Option MultiDatasetHandlingStrategy)
    (in_value pid : String)
    (ha : client.get_value_from_handle (pyReplace in_value "hdl:" "")
        "AGGREGATION_LEVEL" = some "FILE")
    (hp : get_dataset_pid client strategy (pyReplace in_value "hdl:" "") =
        .ok pid) :
    get_doi_and_version client false strategy in_value =
      ((doi_version_from_pid client pid).1,
       (pyReplace in_value "hdl:" "", "AGGREGATION_LEVEL") ::
         (pyReplace in_value "hdl:" "", "DATASET_LINKS") ::
         (doi_version_from_pid client pid).2) := by
  simp [get_doi_and_version, ha, hp]

/-- C3: for a tracking ID linked to more than one dataset PID, strategy
FIRST selects a linked candidate whose publication date is at most every
other candidate's, strategy LATEST one whose publication date is at
least every other candidate's, and in both cases the DOI and the version
are then looked up from the selected PID. -/
theorem get_doi_and_version_strategy (client : HandleClient)
    (in_value : String) (l1 l2 : DatasetLink) (rest : List DatasetLink)
    (ha : client.get_value_from_handle (pyReplace in_value "hdl:" "")
        "AGGREGATION_LEVEL" = some "FILE")
    (hl : client.dataset_links (pyReplace in_value "hdl:" "") =
        l1 :: l2 :: rest) :
    (∃ sel ∈ l1 :: l2 :: rest,
      (∀ l ∈ l1 :: l2 :: rest,
        sel.publication_date ≤ l.publication_date) ∧
      get_dataset_pid client (some .FIRST) (pyReplace in_value "hdl:" "") =
        .ok sel.pid ∧
      get_doi_and_version client false (some .FIRST) in_value =
        ((doi_version_from_pid client sel.pid).1,
         (pyReplace in_value "hdl:" "", "AGGREGATION_LEVEL") ::
           (pyReplace in_value "hdl:" "", "DATASET_LINKS") ::
           (doi_version_from_pid client sel.pid).2)) ∧
    (∃ sel ∈ l1 :: l2 :: rest,
      (∀ l ∈ l1 :: l2 :: rest,
        l.publication_date ≤ sel.publication_date) ∧
      get_dataset_pid client (some .LATEST) (pyReplace in_value "hdl:" "") =
        .ok sel.pid ∧
      get_doi_and_version client false (some .LATEST) in_value =
        ((doi_version_from_pid client sel.pid).1,
         (pyReplace in_value "hdl:" "", "AGGREGATION_LEVEL") ::
           (pyReplace in_value "hdl:" "", "DATASET_LINKS") ::
           (doi_version_from_pid client sel.pid).2)) := by
  have hperm : (sortLinksDesc (l1 :: l2 :: rest)).Perm
      (l1 :: l2 :: rest) := List.perm_insertionSort dateGE _
  have hsorted : (sortLinksDesc (l1 :: l2 :: rest)).Pairwise dateGE :=
    List.sorted_insertionSort dateGE (l1 :: l2 :: rest)
  cases hcase : sortLinksDesc (l1 :: l2 :: rest) with
  | nil =>
    exfalso
    have := hperm.length_eq
    rw [hcase] at this
    simp at this
  | cons x xs =>
    rw [hcase] at hperm hsorted
    constructor
    · refine ⟨xs.getLastD x, ?_, ?_, ?_, ?_⟩
      · exact hperm.mem_iff.mp (List.getLastD_mem_cons xs x)
      · intro l hlmem
        exact getLastD_min xs x hsorted l (hperm.mem_iff.mpr hlmem)
      · simp only [get_dataset_pid, hl, hcase, List.getLastD_cons]
      · exact get_doi_and_version_file_ok client (some .FIRST) in_value
          (xs.getLastD x).pid ha
          (by simp only [get_dataset_pid, hl, hcase, List.getLastD_cons])
    · refine ⟨x, ?_, ?_, ?_, ?_⟩
      · exact hperm.mem_iff.mp (List.mem_cons_self x xs)
      · intro l hlmem
        rcases List.mem_cons.mp (hperm.mem_iff.mpr hlmem) with hlx | hlxs
        · rw [hlx]
        · exact List.rel_of_pairwise_cons hsorted hlxs
      · simp only [get_dataset_pid, hl, hcase, List.headD_cons]
      · exact get_doi_and_version_file_ok client (some .LATEST) in_value
          x.pid ha
          (by simp only [get_dataset_pid, hl, hcase, List.headD_cons])

/-- Witness for C3 at a concrete tracking ID with two memberships. -/
theorem get_doi_and_version_strategy_witness :
    (∃ sel ∈ [DatasetLink.mk "pa" "20190903", DatasetLink.mk "pb" "20210205"],
      (∀ l ∈ [DatasetLink.mk "pa" "20190903", DatasetLink.mk "pb" "20210205"],
        sel.publication_date ≤ l.publication_date) ∧
      get_dataset_pid testClient (some .FIRST) (pyReplace "tid" "hdl:" "") =
        .ok sel.pid ∧
      get_doi_and_version testClient false (some .FIRST) "tid" =
        ((doi_version_from_pid testClient sel.pid).1,
         (pyReplace "tid" "hdl:" "", "AGGREGATION_LEVEL") ::
           (pyReplace "tid" "hdl:" "", "DATASET_LINKS") ::
           (doi_version_from_pid testClient sel.pid).2)) ∧
    (∃ sel ∈ [DatasetLink.mk "pa" "20190903", DatasetLink.mk "pb" "20210205"],
      (∀ l ∈ [DatasetLink.mk "pa" "20190903", DatasetLink.mk "pb" "20210205"],
        l.publication_date ≤ sel.publication_date) ∧
      get_dataset_pid testClient (some .LATEST) (pyReplace "tid" "hdl:" "") =
        .ok sel.pid ∧
      get_doi_and_version testClient false (some .LATEST) "tid" =
        ((doi_version_from_pid testClient sel.pid).1,
         (pyReplace "tid" "hdl:" "", "AGGREGATION_LEVEL") ::
           (pyReplace "tid" "hdl:" "", "DATASET_LINKS") ::
           (doi_version_from_pid testClient sel.pid).2)) :=
  get_doi_and_version_strategy testClient "tid"
    ⟨"pa", "20190903"⟩ ⟨"pb", "20210205"⟩ [] (by decide) (by decide)

/-- C4: when every input resolves, `get_citations` produces exactly one
citation per distinct (DOI, version) pair: the deduplicated pair list has
no duplicates, each resolved pair occurs in it exactly once (so two
inputs resolving to the same pair yield a single producer invocation for
that pair), and the output has as many elements as there are distinct
resolved pairs. -/
theorem get_citations_dedup (client : HandleClient)
    (pe : String → Bool) (strategy : Option MultiDatasetHandlingStrategy)
    (producer : String → Option String → String) (ids : List String)
    (pairs : List (String × Option String))
    (h : ids.mapM (fun v =>
        (get_doi_and_version client (pe v) strategy v).1) =
      Except.ok pairs) :
    get_citations client pe producer strategy ids =
      .ok (pairs.dedup.map (fun p => producer p.1 p.2)) ∧
    pairs.dedup.Nodup ∧
    (∀ p, p ∈ pairs.dedup ↔ p ∈ pairs) ∧
    (pairs.dedup.map (fun p => producer p.1 p.2)).length =
      pairs.toFinset.card := by
  refine ⟨?_, List.nodup_dedup pairs, ?_, ?_⟩
  · unfold get_citations
    rw [h]
    rfl
  · intro p
    exact List.mem_dedup
  · have h1 : pairs.dedup.toFinset = pairs.toFinset := by
      ext z
      simp [List.mem_toFinset, List.mem_dedup]
    rw [List.length_map,
      ← List.toFinset_card_of_nodup (List.nodup_dedup pairs), h1]

/-- Witness for C4: two different identifiers, `ds` and `hdl:ds`,
resolve to the same (DOI, version) pair and yield one citation. -/
theorem get_citations_dedup_witness :
    get_citations testClient (fun _ => false) (fun d _ => d) none
        ["ds", "hdl:ds"] =
      .ok (([("10.1/x", some "v1"),
        ("10.1/x", some "v1")] :
          List (String × Option String)).dedup.map (fun p => p.1)) ∧
    ([("10.1/x", some "v1"), ("10.1/x", some "v1")] :
      List (String × Option String)).dedup.Nodup ∧
    (∀ p, p ∈ ([("10.1/x", some "v1"), ("10.1/x", some "v1")] :
        List (String × Option String)).dedup ↔
      p ∈ ([("10.1/x", some "v1"), ("10.1/x", some "v1")] :
        List (String × Option String))) ∧
    (([("10.1/x", some "v1"), ("10.1/x", some "v1")] :
        List (String × Option String)).dedup.map (fun p => p.1)).length =
      ([("10.1/x", some "v1"), ("10.1/x", some "v1")] :
        List (String × Option String)).toFinset.card :=
  get_citations_dedup testClient (fun _ => false) none (fun d _ => d)
    ["ds", "hdl:ds"] [("10.1/x", some "v1"), ("10.1/x", some "v1")]
    (by decide)

end Cmipcite
